import Mathlib

/-!
Verification of the request-processing core of the vhvplatform go-api-gateway
repository: a shallow embedding in Lean 4 of the authentication middleware,
the rate-limit middleware and its token bucket, the circuit-breaker registry,
and the reverse-proxy failover chain, together with theorems settling the
behavioural claims made by the design specification.

Times are modelled as rational numbers of seconds.  Go maps and HTTP header
maps are modelled as association lists; the entry found by lookup is the
authoritative one.  External collaborators (the gobreaker library, the
x/time/rate token bucket, the tiered cache, the JWT signer) are modelled
from the words of the specification and marked as such; everything else is
translated from the repository sources.
-/

set_option autoImplicit false

namespace Gateway

/-- HTTP headers and flat JSON objects, as association lists keyed by field
name.  Lookup returns the first binding. -/
abbrev Headers := List (String × String)

/-- Read a header; Go returns the empty string for an absent header. -/
def headerGet (h : Headers) (k : String) : String :=
  (h.lookup k).getD ""

/-- Go `Header.Set`: replace any existing values of the key. -/
def headerSet (h : Headers) (k v : String) : Headers :=
  (k, v) :: h.filter (fun p => p.1 != k)

theorem headerGet_set_self (h : Headers) (k v : String) :
    headerGet (headerSet h k v) k = v := by
  simp [headerGet, headerSet, List.lookup]

theorem lookup_filter_ne (h : Headers) (k k' : String) (hne : k' ≠ k) :
    (h.filter (fun p => p.1 != k)).lookup k' = h.lookup k' := by
  induction h with
  | nil => rfl
  | cons p t ih =>
    by_cases hp : p.1 = k
    · have hf : (p.1 != k) = false := by simp [hp]
      have hb : (k' == p.1) = false := by simp [hp]; exact hne
      simp [List.filter, hf, List.lookup, hb, ih]
    · have hf : (p.1 != k) = true := by simp [hp]
      by_cases hk : k' = p.1
      · simp [List.filter, hf, List.lookup, hk]
      · have hb : (k' == p.1) = false := by simp [hk]
        simp [List.filter, hf, List.lookup, hb, ih]

theorem headerGet_set_other (h : Headers) (k v k' : String) (hne : k' ≠ k) :
    headerGet (headerSet h k v) k' = headerGet h k' := by
  have hbeq : (k' == k) = false := by simp [hne]
  simp [headerGet, headerSet, List.lookup, hbeq, lookup_filter_ne h k k' hne]

/-- Go `strings.Split(s, sep)` for a one-character separator, on the
character list of the string: split around every occurrence of the
separator, keeping empty fields. -/
def splitChar (sep : Char) : List Char → List (List Char)
  | [] => [[]]
  | c :: cs =>
    match splitChar sep cs with
    | [] => if c = sep then [[], []] else [[c]]
    | w :: ws => if c = sep then [] :: w :: ws else (c :: w) :: ws

/-- Go `strings.Split(s, sep)` for a one-character separator, as a list of
strings. -/
def goSplit (s : String) (sep : Char) : List String :=
  (splitChar sep s.data).map (fun w => ⟨w⟩)

end Gateway

namespace Gateway.Auth

/-- `client.VerifyTokenResponse` (src/server/internal/client/auth_client.go):
the verified-token record returned by the Auth collaborator. -/
structure VerifyTokenResponse where
  valid       : Bool
  userId      : String
  tenantId    : String
  email       : String
  roles       : List String
  permissions : List String
  metadata    : List (String × String)
deriving Repr, DecidableEq

/-- One stored cache entry: the record plus its absolute expiration. -/
structure CacheEntry where
  value     : VerifyTokenResponse
  expiresAt : ℚ
deriving Repr, DecidableEq

/-- Modelled from the spec: the go-shared tiered cache collaborator, §3
"Cache Entry. Key → (serialized value bytes, absolute expiration)".
Only the key-value-TTL contract the middleware consumes is modelled. -/
abbrev Cache := List (String × CacheEntry)

/-- Modelled from the spec: a read hits while `now` is before the absolute
expiration of the entry, and misses otherwise. -/
def cacheGet (cache : Cache) (now : ℚ) (key : String) : Option VerifyTokenResponse :=
  match cache.lookup key with
  | some e => if now < e.expiresAt then some e.value else none
  | none => none

/-- Modelled from the spec: a write stores the value with absolute
expiration `now + ttl` (ttl in seconds). -/
def cacheSet (cache : Cache) (now : ℚ) (key : String) (v : VerifyTokenResponse)
    (ttl : ℚ) : Cache :=
  (key, ⟨v, now + ttl⟩) :: cache

/-- `injectHeaders` (src/internal/middleware/auth.go:63): mint the internal
JWT from the verified record and overwrite the two forwarded headers.
`jwtGen` stands for the external `jwt.Manager.GenerateToken` collaborator,
a function of exactly the five record fields the source passes to it. -/
def injectHeaders
    (jwtGen : String → String → String → List String → List String → String)
    (reqHeaders : Headers) (resp : VerifyTokenResponse) : Headers :=
  let internalToken := jwtGen resp.userId resp.tenantId resp.email resp.roles resp.permissions
  headerSet (headerSet reqHeaders "X-Tenant-ID" resp.tenantId) "X-Internal-Token" internalToken

/-- Observable result of one pass through `AuthMiddleware` for one request.
`verifyCalled` instruments whether the Auth collaborator was invoked;
`proceeded` records whether `c.Next()` ran (i.e. whether the request went
on towards the upstream); `record` is the record bound into the request
context on success. -/
structure AuthStep where
  status       : Option Nat
  body         : List (String × String)
  proceeded    : Bool
  headers      : Headers
  cache        : Cache
  verifyCalled : Bool
  record       : Option VerifyTokenResponse
deriving Repr

/-- Steps 2 to 4 of `AuthMiddleware` (src/internal/middleware/auth.go:46):
cache miss, so verify the opaque token via the collaborator, reject 401 on
error or invalid record, otherwise cache the result for 30 minutes and
proceed with injected headers. -/
def authVerifyPath
    (verify : String → Option VerifyTokenResponse)
    (jwtGen : String → String → String → List String → List String → String)
    (cache : Cache) (now : ℚ) (reqHeaders : Headers)
    (cacheKey token : String) : AuthStep :=
  match verify token with
  | some r =>
    if r.valid then
      { status := none, body := [], proceeded := true
        headers := injectHeaders jwtGen reqHeaders r
        cache := cacheSet cache now cacheKey r (30 * 60)
        verifyCalled := true, record := some r }
    else
      { status := some 401, body := [("error", "Invalid or expired token")]
        proceeded := false, headers := reqHeaders, cache := cache
        verifyCalled := true, record := none }
  | none =>
      { status := some 401, body := [("error", "Invalid or expired token")]
        proceeded := false, headers := reqHeaders, cache := cache
        verifyCalled := true, record := none }

/-- `AuthMiddleware` (src/internal/middleware/auth.go:18): parse the
Authorization header, consult the tiered cache under `token:` + token,
serve valid cached records, otherwise verify against the Auth collaborator.
`verify` stands for `authClient.VerifyToken`; `none` models a non-nil error. -/
def authMiddleware
    (verify : String → Option VerifyTokenResponse)
    (jwtGen : String → String → String → List String → List String → String)
    (cache : Cache) (now : ℚ) (reqHeaders : Headers) : AuthStep :=
  let authHeader := headerGet reqHeaders "Authorization"
  if authHeader = "" then
    { status := some 401, body := [("error", "Authorization header required")]
      proceeded := false, headers := reqHeaders, cache := cache
      verifyCalled := false, record := none }
  else
    let parts := goSplit authHeader ' '
    if parts.length ≠ 2 ∨ parts.headD "" ≠ "Bearer" then
      { status := some 401, body := [("error", "Invalid authorization header format")]
        proceeded := false, headers := reqHeaders, cache := cache
        verifyCalled := false, record := none }
    else
      let opaqueToken := parts.getD 1 ""
      let cacheKey := "token:" ++ opaqueToken
      match cacheGet cache now cacheKey with
      | some r =>
        if r.valid then
          { status := none, body := [], proceeded := true
            headers := injectHeaders jwtGen reqHeaders r, cache := cache
            verifyCalled := false, record := some r }
        else
          authVerifyPath verify jwtGen cache now reqHeaders cacheKey opaqueToken
      | none =>
          authVerifyPath verify jwtGen cache now reqHeaders cacheKey opaqueToken

end Gateway.Auth

namespace Gateway.CB

/-- Go error values the breaker paths can surface. -/
inductive GoErr where
  | errOpenState
  | errTooManyRequests
  | ctxCanceled
  | ctxDeadlineExceeded
  | upstream (msg : String)
deriving Repr, DecidableEq

/-- A Go context, reduced to the two observations the source makes of it:
whether its Done channel is closed and what `ctx.Err()` returns then. -/
structure GoContext where
  canceled : Bool
  errVal   : GoErr
deriving Repr, DecidableEq

/-- `ctx.Err()`: nil while the context is live, the cancellation cause after. -/
def GoContext.err (ctx : GoContext) : Option GoErr :=
  if ctx.canceled then some ctx.errVal else none

/-- `gobreaker.Counts`: request tallies over the current interval generation.
The Go fields are uint32; counts stay far below 2^32 in every statement
proved here, so plain naturals are used. -/
structure Counts where
  requests             : Nat
  totalSuccesses       : Nat
  totalFailures        : Nat
  consecutiveSuccesses : Nat
  consecutiveFailures  : Nat
deriving Repr, DecidableEq

def Counts.zero : Counts := ⟨0, 0, 0, 0, 0⟩

def Counts.onRequest (c : Counts) : Counts :=
  { c with requests := c.requests + 1 }

def Counts.onSuccess (c : Counts) : Counts :=
  { c with totalSuccesses := c.totalSuccesses + 1
           consecutiveSuccesses := c.consecutiveSuccesses + 1
           consecutiveFailures := 0 }

def Counts.onFailure (c : Counts) : Counts :=
  { c with totalFailures := c.totalFailures + 1
           consecutiveFailures := c.consecutiveFailures + 1
           consecutiveSuccesses := 0 }

/-- The `ReadyToTrip` closure installed by `GetBreaker`
(src/unnamed/part_008:46): trip when `counts.Requests >= 3` and the failure
ratio `float64(TotalFailures) / float64(Requests)` is at least 0.6.  The
float comparison is rendered exactly over the integers as
`5 * TotalFailures ≥ 3 * Requests`: for operands below 2^32 (the width of
the Go counters) the correctly rounded float64 quotient compares to the
float64 nearest 0.6 exactly as the rational quotient compares to 3/5,
because no fraction with denominator below 2^32 other than 3/5 itself lies
within the rounding distance of 0.6. -/
def readyToTrip (c : Counts) : Bool :=
  decide (3 ≤ c.requests) && decide (3 * c.requests ≤ 5 * c.totalFailures)

/-- `gobreaker.Settings` as configured by `GetBreaker`
(src/unnamed/part_008:41): only the fields the source sets. -/
structure Settings where
  name        : String
  maxRequests : Nat
  intervalSec : ℚ
  timeoutSec  : ℚ
  trip        : Counts → Bool

/-- The settings literal from `GetBreaker`: MaxRequests 3, Interval one
minute, Timeout 30 seconds, and the ReadyToTrip closure above. -/
def defaultSettings (name : String) : Settings :=
  { name := name, maxRequests := 3, intervalSec := 60, timeoutSec := 30
    trip := readyToTrip }

inductive BState where
  | closed
  | opened
  | halfOpen
deriving Repr, DecidableEq

/-- Modelled from the spec: the state carried per breaker by the gobreaker
collaborator, §3 "Breaker State": state, counters over the current
interval, and the boundary instant (`expiry`) at which the interval rolls
over while CLOSED or the cooldown ends while OPEN. -/
structure Breaker where
  settings : Settings
  state    : BState
  counts   : Counts
  expiry   : ℚ

/-- Modelled from the spec, §4.2: counters reset at every interval boundary
while CLOSED; OPEN becomes HALF_OPEN once `now - openedAt` reaches the
cooldown timeout. -/
def Breaker.updateState (b : Breaker) (now : ℚ) : Breaker :=
  match b.state with
  | .closed =>
    if b.expiry ≤ now then
      { b with counts := Counts.zero, expiry := now + b.settings.intervalSec }
    else b
  | .opened =>
    if b.expiry ≤ now then
      { b with state := .halfOpen, counts := Counts.zero }
    else b
  | .halfOpen => b

/-- Result of one wrapped call, with `fnCalled` instrumenting whether the
protected function was actually invoked. -/
structure ExecResult (α : Type) where
  breaker  : Breaker
  result   : Option α
  error    : Option GoErr
  fnCalled : Bool

/-- Modelled from the spec, §4.2 state machine of the gobreaker collaborator:
while OPEN every call fails immediately with ErrOpen and the protected
function is not invoked; while HALF_OPEN at most MaxRequests probe calls
may proceed (additional ones are refused), a probe success closes the
breaker and a probe failure reopens it; while CLOSED the call runs, the
counters are updated with its outcome, and the breaker trips to OPEN
exactly when the ReadyToTrip predicate holds on the updated counters.
The outcome of the protected function is the pair `fn` of its result and
its error (`some` modelling a non-nil Go error). -/
def Breaker.execute {α : Type} (b : Breaker) (now : ℚ)
    (fn : Option α × Option GoErr) : ExecResult α :=
  let b := b.updateState now
  match b.state with
  | .opened => ⟨b, none, some .errOpenState, false⟩
  | .halfOpen =>
    if b.settings.maxRequests ≤ b.counts.requests then
      ⟨b, none, some .errTooManyRequests, false⟩
    else
      let b1 := { b with counts := b.counts.onRequest }
      match fn with
      | (v, none) =>
        ⟨{ b1 with state := .closed
                   counts := Counts.zero
                   expiry := now + b1.settings.intervalSec }, v, none, true⟩
      | (v, some e) =>
        ⟨{ b1 with state := .opened
                   counts := Counts.zero
                   expiry := now + b1.settings.timeoutSec }, v, some e, true⟩
  | .closed =>
    let b1 := { b with counts := b.counts.onRequest }
    match fn with
    | (v, none) =>
      let c := b1.counts.onSuccess
      if b1.settings.trip c then
        ⟨{ b1 with state := .opened
                   counts := Counts.zero
                   expiry := now + b1.settings.timeoutSec }, v, none, true⟩
      else
        ⟨{ b1 with counts := c }, v, none, true⟩
    | (v, some e) =>
      let c := b1.counts.onFailure
      if b1.settings.trip c then
        ⟨{ b1 with state := .opened
                   counts := Counts.zero
                   expiry := now + b1.settings.timeoutSec }, v, some e, true⟩
      else
        ⟨{ b1 with counts := c }, v, some e, true⟩

/-- The registry map of `CircuitBreaker` (src/unnamed/part_008:11), keyed by
logical upstream name. -/
abbrev Registry := List (String × Breaker)

/-- Store a breaker back under its name (the Go map holds pointers, so a
completed call overwrites the entry in place). -/
def regSet (reg : Registry) (name : String) (b : Breaker) : Registry :=
  (name, b) :: reg.filter (fun p => p.1 != name)

/-- `GetBreaker` (src/unnamed/part_008:24): return the existing breaker for
the name, or lazily create one with the default settings.  `now` supplies
the ambient clock at which a fresh breaker starts its first interval. -/
def GetBreaker (reg : Registry) (now : ℚ) (name : String) : Registry × Breaker :=
  match reg.lookup name with
  | some b => (reg, b)
  | none =>
    let b : Breaker :=
      { settings := defaultSettings name, state := .closed
        counts := Counts.zero, expiry := now + (defaultSettings name).intervalSec }
    ((name, b) :: reg, b)

/-- Observable result of `Execute` / `ExecuteContext` on the registry. -/
structure CallResult (α : Type) where
  registry : Registry
  result   : Option α
  error    : Option GoErr
  fnCalled : Bool

/-- `Execute` (src/unnamed/part_008:114): fetch the breaker for the name
and run the call through it. -/
def Execute {α : Type} (reg : Registry) (now : ℚ) (name : String)
    (fn : Option α × Option GoErr) : CallResult α :=
  let p := GetBreaker reg now name
  let r := p.2.execute now fn
  ⟨regSet p.1 name r.breaker, r.result, r.error, r.fnCalled⟩

/-- `ExecuteContext` (src/unnamed/part_008:120): short-circuit with
`ctx.Err()` when the context is already canceled, otherwise exactly the
body of `Execute`. -/
def ExecuteContext {α : Type} (ctx : GoContext) (reg : Registry) (now : ℚ)
    (name : String) (fn : Option α × Option GoErr) : CallResult α :=
  if ctx.canceled then
    ⟨reg, none, ctx.err, false⟩
  else
    let p := GetBreaker reg now name
    let r := p.2.execute now fn
    ⟨regSet p.1 name r.breaker, r.result, r.error, r.fnCalled⟩

/-- Feed a breaker a sequence of failing calls at a fixed instant. -/
def runFailures (b : Breaker) (now : ℚ) : Nat → Breaker
  | 0 => b
  | n + 1 => runFailures ((b.execute now ((none : Option Unit), some (.upstream "fail"))).breaker) now n

end Gateway.CB

namespace Gateway.RL

/-- Modelled from the spec, §4.1 and §3 "Rate-Limit Entry": the classic
token bucket of the x/time/rate collaborator, with capacity `burst`,
refill rate `r` tokens per second, the current token count, and the
instant of the last refill. -/
structure TokenBucket where
  r      : ℚ
  burst  : ℕ
  tokens : ℚ
  last   : ℚ
deriving Repr, DecidableEq

/-- Modelled from the spec: "the token count is advanced by
(now − lastRefill) × R, capped at B". -/
def TokenBucket.advance (b : TokenBucket) (now : ℚ) : TokenBucket :=
  { b with tokens := min (b.burst : ℚ) (b.tokens + (now - b.last) * b.r), last := now }

/-- Modelled from the spec: "if ≥ 1 token is available it is consumed and
the call is admitted, otherwise rejected". -/
def TokenBucket.allow (b : TokenBucket) (now : ℚ) : TokenBucket × Bool :=
  let b1 := b.advance now
  if 1 ≤ b1.tokens then ({ b1 with tokens := b1.tokens - 1 }, true)
  else (b1, false)

/-- Modelled from the spec: a bucket is created full on first observation
of its key. -/
def TokenBucket.new (r : ℚ) (burst : ℕ) (now : ℚ) : TokenBucket :=
  { r := r, burst := burst, tokens := (burst : ℚ), last := now }

/-- Run a bucket over a list of request arrival instants, returning the
final bucket and the admission verdict of each request in order. -/
def runAllow (b : TokenBucket) : List ℚ → TokenBucket × List Bool
  | [] => (b, [])
  | t :: ts =>
    let p := b.allow t
    let q := runAllow p.1 ts
    (q.1, p.2 :: q.2)

/-- `limiterEntry` (src/internal/middleware/rate_limit.go:14): a bucket and
its last access time. -/
structure LimiterEntry where
  bucket     : TokenBucket
  lastAccess : ℚ
deriving Repr, DecidableEq

abbrev Limiters := List (String × LimiterEntry)

/-- Replace or insert the entry stored under a key. -/
def limSet (ls : Limiters) (key : String) (e : LimiterEntry) : Limiters :=
  (key, e) :: ls.filter (fun p => p.1 != key)

/-- `RateLimiter` (src/internal/middleware/rate_limit.go:20). -/
structure RateLimiter where
  limiters : Limiters
  rate     : ℚ
  burst    : ℕ
deriving Repr, DecidableEq

/-- `NewRateLimiter` (src/internal/middleware/rate_limit.go:28). -/
def NewRateLimiter (rps : ℚ) (burst : ℕ) : RateLimiter :=
  { limiters := [], rate := rps, burst := burst }

/-- `GetLimiter` (src/internal/middleware/rate_limit.go:37): return the
bucket for the key, refreshing its last access time, or create a fresh
bucket with the configured rate and burst on first reference. -/
def GetLimiter (rl : RateLimiter) (now : ℚ) (key : String) :
    RateLimiter × TokenBucket :=
  match rl.limiters.lookup key with
  | some e =>
    ({ rl with limiters := limSet rl.limiters key { e with lastAccess := now } }, e.bucket)
  | none =>
    let b := TokenBucket.new rl.rate rl.burst now
    ({ rl with limiters := (key, ⟨b, now⟩) :: rl.limiters }, b)

/-- The idle TTL of a limiter entry (`10*time.Minute`,
src/internal/middleware/rate_limit.go:85), in seconds. -/
def idleTTL : ℚ := 10 * 60

/-- The sweeper ticker period (`10*time.Minute`,
src/internal/middleware/rate_limit.go:74), in seconds. -/
def cleanupInterval : ℚ := 10 * 60

/-- One tick of `CleanupLimiters` (src/internal/middleware/rate_limit.go:80):
under the map lock, delete every entry with `now.Sub(lastAccess) >
10*time.Minute`, keep the rest. -/
def sweepPass (now : ℚ) (ls : Limiters) : Limiters :=
  ls.filter (fun p => !(decide (idleTTL < now - p.2.lastAccess)))

/-- An event observed by the sweeper loop: a ticker tick at some instant,
or the closing of the cancellation context. -/
inductive SweepEvent where
  | tick (now : ℚ)
  | cancel
deriving Repr, DecidableEq

/-- The `for`/`select` loop of `CleanupLimiters`
(src/internal/middleware/rate_limit.go:77) run over a finite event trace:
each tick sweeps the map, the cancellation event returns from the
goroutine at once (later events are never seen), and the Bool records
whether the loop terminated within the trace. -/
def cleanupLimiters : List SweepEvent → Limiters → Limiters × Bool
  | [], ls => (ls, false)
  | .tick now :: evs, ls => cleanupLimiters evs (sweepPass now ls)
  | .cancel :: _, ls => (ls, true)

/-- Observable result of one pass through `RateLimitMiddleware` for one
request. -/
structure RLStep where
  limiter   : RateLimiter
  status    : Option Nat
  body      : List (String × String)
  proceeded : Bool
  key       : String
deriving Repr

/-- The per-request closure of `RateLimitMiddleware`
(src/internal/middleware/rate_limit.go:102): key is the client IP,
prefixed by `tenantId + ":"` when the X-Tenant-ID header is non-empty;
a bucket rejection aborts the chain with 429 and a JSON error body. -/
def rateLimitMiddleware (rl : RateLimiter) (now : ℚ)
    (clientIP tenantHeader : String) : RLStep :=
  let key := if tenantHeader ≠ "" then tenantHeader ++ ":" ++ clientIP else clientIP
  let p := GetLimiter rl now key
  let q := p.2.allow now
  let rl2 := { p.1 with limiters := limSet p.1.limiters key ⟨q.1, now⟩ }
  if q.2 then
    { limiter := rl2, status := none, body := [], proceeded := true, key := key }
  else
    { limiter := rl2, status := some 429
      body := [("error", "Rate limit exceeded")], proceeded := false, key := key }

end Gateway.RL

namespace Gateway.Proxy

/-- UTF-8 bytes of a Unicode code point, as naturals below 256. -/
def utf8Bytes (n : Nat) : List Nat :=
  if n < 128 then [n]
  else if n < 2048 then [192 + n / 64, 128 + n % 64]
  else if n < 65536 then [224 + n / 4096, 128 + (n / 64) % 64, 128 + n % 64]
  else [240 + n / 262144, 128 + (n / 4096) % 64, 128 + (n / 64) % 64, 128 + n % 64]

/-- Upper-case hexadecimal digit of a natural below 16. -/
def hexDigit (n : Nat) : Char :=
  if n < 10 then Char.ofNat (48 + n) else Char.ofNat (55 + n)

/-- A byte Go url.QueryEscape leaves unescaped: ASCII alphanumerics and
`-`, `_`, `.`, `~`. -/
def isUnreservedByte (b : Nat) : Bool :=
  (65 ≤ b && b ≤ 90) || (97 ≤ b && b ≤ 122) || (48 ≤ b && b ≤ 57) ||
    b == 45 || b == 95 || b == 46 || b == 126

/-- Escape one byte the way Go url.QueryEscape does in query components:
unreserved bytes stand for themselves, a space becomes `+`, every other
byte becomes `%` followed by two upper-case hex digits. -/
def escapeByte (b : Nat) : List Char :=
  if isUnreservedByte b then [Char.ofNat b]
  else if b == 32 then [Char.ofNat 43]
  else [Char.ofNat 37, hexDigit (b / 16), hexDigit (b % 16)]

/-- The `url.QueryEscape` collaborator of the Go standard library, applied
byte-wise to the UTF-8 encoding of the string. -/
def queryEscape (s : String) : String :=
  ⟨((s.data.map (fun c => utf8Bytes c.toNat)).flatten.map escapeByte).flatten⟩

/-- The environment `handleFailover` runs against: `resolve` is
`getServiceURL` (src/server/internal/handler/proxy.go:142, empty string
for an unresolved name), `parseOk` tells whether `url.Parse` accepts a
target, `dispatchOk` tells whether the reverse proxy ServeHTTP to a target
succeeds, and `errMsg` is the error text a failed dispatch reports. -/
structure ProxyEnv where
  resolve    : String → String
  parseOk    : String → Bool
  dispatchOk : String → Bool
  errMsg     : String → String

/-- Final disposition of the failover chain. -/
inductive POutcome where
  | ok
  | internalErr
  | redirect (loc : String)
  | outOfFuel
deriving Repr, DecidableEq

/-- `handleFailover` (src/server/internal/handler/proxy.go:118) with the
body of `proxyRequest` (line 89) inlined at its two call sites: when the
tenant default service flag `td` is non-empty, clear it and dispatch to
its resolved URL; otherwise dispatch to the resolved system default
`dashboard-service` when that resolves; otherwise 302-redirect to the
auth login page with the url-encoded reason.  A dispatch whose target
fails `url.Parse` answers 500; a dispatch that fails at ServeHTTP
re-enters `handleFailover` through the proxy ErrorHandler with the
dispatch error as the new reason.  The mutual recursion through the
ErrorHandler is unbounded in Go; `fuel` bounds the modelled call stack.
The first component collects every dispatch actually issued, as the pair
of (was this dispatch selected through the tenant-default flag, target). -/
def handleFailover (env : ProxyEnv) : Nat → String → String →
    List (Bool × String) × POutcome
  | 0, _, _ => ([], .outOfFuel)
  | n + 1, td, reason =>
    if td ≠ "" then
      let target := env.resolve td
      if !env.parseOk target then ([], .internalErr)
      else if env.dispatchOk target then ([(true, target)], .ok)
      else
        let r := handleFailover env n "" (env.errMsg target)
        ((true, target) :: r.1, r.2)
    else if env.resolve "dashboard-service" ≠ "" then
      let target := env.resolve "dashboard-service"
      if !env.parseOk target then ([], .internalErr)
      else if env.dispatchOk target then ([(false, target)], .ok)
      else
        let r := handleFailover env n "" (env.errMsg target)
        ((false, target) :: r.1, r.2)
    else
      ([], .redirect ("/auth/login?error=" ++ queryEscape reason))

end Gateway.Proxy



namespace Gateway.Auth

/-- The rejection step the middleware emits: status 401, a one-field JSON
error object, chain aborted, nothing else touched. -/
def rejectStep (cache : Cache) (h : Headers) (msg : String) : AuthStep :=
  { status := some 401, body := [("error", msg)], proceeded := false
    headers := h, cache := cache, verifyCalled := false, record := none }

/-- The cache-hit step: proceed with the cached record, cache untouched,
collaborator not called. -/
def hitStep
    (jwtGen : String → String → String → List String → List String → String)
    (cache : Cache) (h : Headers) (r : VerifyTokenResponse) : AuthStep :=
  { status := none, body := [], proceeded := true
    headers := injectHeaders jwtGen h r, cache := cache
    verifyCalled := false, record := some r }

/-- Exhaustive branch structure of `authMiddleware`, read off the source:
the four ways a request can leave the middleware. -/
theorem authMiddleware_spec
    (verify : String → Option VerifyTokenResponse)
    (jwtGen : String → String → String → List String → List String → String)
    (cache : Cache) (now : ℚ) (h : Headers) :
    (headerGet h "Authorization" = "" ∧
      authMiddleware verify jwtGen cache now h
        = rejectStep cache h "Authorization header required") ∨
    (headerGet h "Authorization" ≠ "" ∧
      ((goSplit (headerGet h "Authorization") ' ').length ≠ 2 ∨
        (goSplit (headerGet h "Authorization") ' ').headD "" ≠ "Bearer") ∧
      authMiddleware verify jwtGen cache now h
        = rejectStep cache h "Invalid authorization header format") ∨
    (headerGet h "Authorization" ≠ "" ∧
      (goSplit (headerGet h "Authorization") ' ').length = 2 ∧
      (goSplit (headerGet h "Authorization") ' ').headD "" = "Bearer" ∧
      ((∃ r, cacheGet cache now
            ("token:" ++ (goSplit (headerGet h "Authorization") ' ').getD 1 "") = some r ∧
          r.valid = true ∧
          authMiddleware verify jwtGen cache now h = hitStep jwtGen cache h r) ∨
       ((cacheGet cache now
            ("token:" ++ (goSplit (headerGet h "Authorization") ' ').getD 1 "") = none ∨
         ∃ r, cacheGet cache now
            ("token:" ++ (goSplit (headerGet h "Authorization") ' ').getD 1 "") = some r ∧
            r.valid = false) ∧
        authMiddleware verify jwtGen cache now h
          = authVerifyPath verify jwtGen cache now h
              ("token:" ++ (goSplit (headerGet h "Authorization") ' ').getD 1 "")
              ((goSplit (headerGet h "Authorization") ' ').getD 1 "")))) := by
  by_cases he : headerGet h "Authorization" = ""
  · exact Or.inl ⟨he, by simp [authMiddleware, he, rejectStep]⟩
  · by_cases hm : (goSplit (headerGet h "Authorization") ' ').length ≠ 2 ∨
      (goSplit (headerGet h "Authorization") ' ').headD "" ≠ "Bearer"
    · exact Or.inr (Or.inl ⟨he, hm, by simp only [authMiddleware, rejectStep]; rw [if_neg he, if_pos hm]⟩)
    · have hlen : (goSplit (headerGet h "Authorization") ' ').length = 2 := by
        by_contra hx; exact hm (Or.inl hx)
      have hhd : (goSplit (headerGet h "Authorization") ' ').headD "" = "Bearer" := by
        by_contra hx; exact hm (Or.inr hx)
      refine Or.inr (Or.inr ⟨he, hlen, hhd, ?_⟩)
      rcases hcg : cacheGet cache now
          ("token:" ++ (goSplit (headerGet h "Authorization") ' ').getD 1 "") with _ | r
      · refine Or.inr ⟨Or.inl rfl, ?_⟩
        simp only [authMiddleware]
        rw [if_neg he, if_neg hm]
        simp only [hcg]
      · by_cases hv : r.valid
        · refine Or.inl ⟨r, rfl, hv, ?_⟩
          simp only [authMiddleware, hitStep]
          rw [if_neg he, if_neg hm]
          simp only [hcg, if_pos hv]
        · refine Or.inr ⟨Or.inr ⟨r, rfl, by simp [hv]⟩, ?_⟩
          simp only [authMiddleware]
          rw [if_neg he, if_neg hm]
          simp only [hcg, if_neg hv]

/-- The two outcomes of `authVerifyPath`, read off the source. -/
theorem authVerifyPath_spec
    (verify : String → Option VerifyTokenResponse)
    (jwtGen : String → String → String → List String → List String → String)
    (cache : Cache) (now : ℚ) (h : Headers) (key t : String) :
    (∃ r, verify t = some r ∧ r.valid = true ∧
      authVerifyPath verify jwtGen cache now h key t
        = { status := none, body := [], proceeded := true
            headers := injectHeaders jwtGen h r
            cache := cacheSet cache now key r (30 * 60)
            verifyCalled := true, record := some r }) ∨
    ((verify t = none ∨ ∃ r, verify t = some r ∧ r.valid = false) ∧
      authVerifyPath verify jwtGen cache now h key t
        = { status := some 401, body := [("error", "Invalid or expired token")]
            proceeded := false, headers := h, cache := cache
            verifyCalled := true, record := none }) := by
  rcases hvf : verify t with _ | r
  · exact Or.inr ⟨Or.inl rfl, by simp only [authVerifyPath, hvf]⟩
  · by_cases hv : r.valid
    · exact Or.inl ⟨r, rfl, hv, by simp only [authVerifyPath, hvf, if_pos hv]⟩
    · refine Or.inr ⟨Or.inr ⟨r, rfl, by simp [hv]⟩, ?_⟩
      simp only [authVerifyPath, hvf, if_neg hv]

end Gateway.Auth

namespace Gateway.Auth

/-- `authVerifyPath` always invokes the Auth collaborator. -/
theorem authVerifyPath_verifyCalled
    (verify : String → Option VerifyTokenResponse)
    (jwtGen : String → String → String → List String → List String → String)
    (cache : Cache) (now : ℚ) (h : Headers) (key t : String) :
    (authVerifyPath verify jwtGen cache now h key t).verifyCalled = true := by
  unfold authVerifyPath
  cases verify t with
  | none => rfl
  | some r => by_cases hv : r.valid <;> simp [hv]

/-- `authVerifyPath` does not depend on the request headers for its record,
admission verdict or collaborator call. -/
theorem authVerifyPath_det
    (verify : String → Option VerifyTokenResponse)
    (jwtGen : String → String → String → List String → List String → String)
    (cache : Cache) (now : ℚ) (h1 h2 : Headers) (key t : String) :
    (authVerifyPath verify jwtGen cache now h1 key t).record
      = (authVerifyPath verify jwtGen cache now h2 key t).record ∧
    (authVerifyPath verify jwtGen cache now h1 key t).proceeded
      = (authVerifyPath verify jwtGen cache now h2 key t).proceeded := by
  unfold authVerifyPath
  cases verify t with
  | none => exact ⟨rfl, rfl⟩
  | some r => by_cases hv : r.valid <;> simp [hv]

/-- A well-formed bearer header whose token has a valid cached record is
served from the cache. -/
theorem authMiddleware_hit
    (verify : String → Option VerifyTokenResponse)
    (jwtGen : String → String → String → List String → List String → String)
    (cache : Cache) (now : ℚ) (h : Headers) (t : String) (r : VerifyTokenResponse)
    (hA : headerGet h "Authorization" = "Bearer " ++ t)
    (hs : goSplit ("Bearer " ++ t) ' ' = ["Bearer", t])
    (hcg : cacheGet cache now ("token:" ++ t) = some r) (hv : r.valid = true) :
    authMiddleware verify jwtGen cache now h = hitStep jwtGen cache h r := by
  have hempty : goSplit "" ' ' = [""] := by decide
  have hne : ("Bearer " ++ t) ≠ "" := by
    intro h0
    rw [h0, hempty] at hs
    have hlen := congrArg List.length hs
    simp at hlen
  rcases authMiddleware_spec verify jwtGen cache now h with ⟨he, _⟩ | ⟨_, hm, _⟩ |
      ⟨_, _, _, hbr⟩
  · rw [hA] at he
    exact absurd he hne
  · rw [hA, hs] at hm
    simp at hm
  · rw [hA, hs] at hbr
    simp only [List.getD_cons_succ, List.getD_cons_zero] at hbr
    rcases hbr with ⟨r', hcg', _, heq⟩ | ⟨hmiss, _⟩
    · rw [hcg] at hcg'
      cases hcg'
      exact heq
    · rcases hmiss with hnone | ⟨r', hcg', hv'⟩
      · rw [hcg] at hnone
        cases hnone
      · rw [hcg] at hcg'
        cases hcg'
        rw [hv] at hv'
        cases hv'

/-- A well-formed bearer header whose token has no valid cached record goes
through the verification path. -/
theorem authMiddleware_miss
    (verify : String → Option VerifyTokenResponse)
    (jwtGen : String → String → String → List String → List String → String)
    (cache : Cache) (now : ℚ) (h : Headers) (t : String)
    (hA : headerGet h "Authorization" = "Bearer " ++ t)
    (hs : goSplit ("Bearer " ++ t) ' ' = ["Bearer", t])
    (hmiss : cacheGet cache now ("token:" ++ t) = none ∨
      ∃ r, cacheGet cache now ("token:" ++ t) = some r ∧ r.valid = false) :
    authMiddleware verify jwtGen cache now h
      = authVerifyPath verify jwtGen cache now h ("token:" ++ t) t := by
  have hempty : goSplit "" ' ' = [""] := by decide
  have hne : ("Bearer " ++ t) ≠ "" := by
    intro h0
    rw [h0, hempty] at hs
    have hlen := congrArg List.length hs
    simp at hlen
  rcases authMiddleware_spec verify jwtGen cache now h with ⟨he, _⟩ | ⟨_, hm, _⟩ |
      ⟨_, _, _, hbr⟩
  · rw [hA] at he
    exact absurd he hne
  · rw [hA, hs] at hm
    simp at hm
  · rw [hA, hs] at hbr
    simp only [List.getD_cons_succ, List.getD_cons_zero] at hbr
    rcases hbr with ⟨r', hcg', hv', _⟩ | ⟨_, heq⟩
    · rcases hmiss with hnone | ⟨r'', hcg'', hv''⟩
      · rw [hnone] at hcg'
        cases hcg'
      · rw [hcg''] at hcg'
        cases hcg'
        rw [hv'] at hv''
        cases hv''
    · exact heq

/-- Reading back the entry just stored. -/
theorem cacheGet_cacheSet_self (c : Cache) (n : ℚ) (k : String)
    (v : VerifyTokenResponse) (ttl tq : ℚ) :
    cacheGet (cacheSet c n k v ttl) tq k = if tq < n + ttl then some v else none := by
  simp [cacheGet, cacheSet, List.lookup]

end Gateway.Auth

namespace Gateway.Auth

/-- Forwarded tenant header after injection: always the record field. -/
theorem injectHeaders_tenant
    (jwtGen : String → String → String → List String → List String → String)
    (h : Headers) (r : VerifyTokenResponse) :
    headerGet (injectHeaders jwtGen h r) "X-Tenant-ID" = r.tenantId := by
  show headerGet (headerSet (headerSet h "X-Tenant-ID" r.tenantId) "X-Internal-Token"
      (jwtGen r.userId r.tenantId r.email r.roles r.permissions)) "X-Tenant-ID" = r.tenantId
  rw [headerGet_set_other _ _ _ _ (by decide), headerGet_set_self]

/-- Forwarded internal token after injection: always minted from the record. -/
theorem injectHeaders_token
    (jwtGen : String → String → String → List String → List String → String)
    (h : Headers) (r : VerifyTokenResponse) :
    headerGet (injectHeaders jwtGen h r) "X-Internal-Token"
      = jwtGen r.userId r.tenantId r.email r.roles r.permissions := by
  show headerGet (headerSet (headerSet h "X-Tenant-ID" r.tenantId) "X-Internal-Token"
      (jwtGen r.userId r.tenantId r.email r.roles r.permissions)) "X-Internal-Token" = _
  rw [headerGet_set_self]

/-- A proceeding request carries exactly the record-derived headers. -/
theorem authMiddleware_proceeded_headers
    (verify : String → Option VerifyTokenResponse)
    (jwtGen : String → String → String → List String → List String → String)
    (cache : Cache) (now : ℚ) (h : Headers)
    (hp : (authMiddleware verify jwtGen cache now h).proceeded = true) :
    ∃ r, (authMiddleware verify jwtGen cache now h).record = some r ∧
      (authMiddleware verify jwtGen cache now h).headers = injectHeaders jwtGen h r := by
  rcases authMiddleware_spec verify jwtGen cache now h with ⟨_, heq⟩ | ⟨_, _, heq⟩ |
      ⟨_, _, _, hbr⟩
  · rw [heq] at hp
    simp [rejectStep] at hp
  · rw [heq] at hp
    simp [rejectStep] at hp
  · rcases hbr with ⟨r, _, _, heq⟩ | ⟨_, heq⟩
    · rw [heq]
      exact ⟨r, rfl, rfl⟩
    · rw [heq] at hp ⊢
      rcases authVerifyPath_spec verify jwtGen cache now h
          ("token:" ++ (goSplit (headerGet h "Authorization") ' ').getD 1 "")
          ((goSplit (headerGet h "Authorization") ' ').getD 1 "") with
        ⟨r, _, _, heq2⟩ | ⟨_, heq2⟩
      · rw [heq2]
        exact ⟨r, rfl, rfl⟩
      · rw [heq2] at hp
        simp at hp

/-- The record and verdict of the middleware depend on the request headers
only through the Authorization header. -/
theorem authMiddleware_det
    (verify : String → Option VerifyTokenResponse)
    (jwtGen : String → String → String → List String → List String → String)
    (cache : Cache) (now : ℚ) (h1 h2 : Headers)
    (hAuth : headerGet h1 "Authorization" = headerGet h2 "Authorization") :
    (authMiddleware verify jwtGen cache now h1).record
      = (authMiddleware verify jwtGen cache now h2).record ∧
    (authMiddleware verify jwtGen cache now h1).proceeded
      = (authMiddleware verify jwtGen cache now h2).proceeded := by
  by_cases he : headerGet h2 "Authorization" = ""
  · have he1 : headerGet h1 "Authorization" = "" := by rw [hAuth, he]
    simp [authMiddleware, he, he1]
  · have he1 : ¬ headerGet h1 "Authorization" = "" := by rw [hAuth]; exact he
    by_cases hm : (goSplit (headerGet h2 "Authorization") ' ').length ≠ 2 ∨
        (goSplit (headerGet h2 "Authorization") ' ').headD "" ≠ "Bearer"
    · have hm1 : (goSplit (headerGet h1 "Authorization") ' ').length ≠ 2 ∨
          (goSplit (headerGet h1 "Authorization") ' ').headD "" ≠ "Bearer" := by
        rw [hAuth]; exact hm
      simp only [authMiddleware]
      rw [if_neg he1, if_neg he, if_pos hm1, if_pos hm]
      exact ⟨rfl, rfl⟩
    · have hm1 : ¬ ((goSplit (headerGet h1 "Authorization") ' ').length ≠ 2 ∨
          (goSplit (headerGet h1 "Authorization") ' ').headD "" ≠ "Bearer") := by
        rw [hAuth]; exact hm
      simp only [authMiddleware]
      rw [if_neg he1, if_neg he, if_neg hm1, if_neg hm, hAuth]
      rcases hcg : cacheGet cache now
          ("token:" ++ (goSplit (headerGet h2 "Authorization") ' ').getD 1 "") with _ | r
      · exact authVerifyPath_det verify jwtGen cache now h1 h2 _ _
      · by_cases hv : r.valid
        · simp [hv]
        · have hvf : r.valid = false := Bool.not_eq_true r.valid ▸ hv
          simp only [hvf, Bool.false_eq_true, if_false]
          exact authVerifyPath_det verify jwtGen cache now h1 h2 _ _

end Gateway.Auth

open Gateway Gateway.Auth Gateway.CB Gateway.RL Gateway.Proxy

/-- C4 counterexample: on a request with no Authorization header the
middleware answers 401, but the JSON error body is an object with an
`error` field and carries no `code` field at all — in particular no
`code = UNAUTHORIZED` — so the claimed body shape fails at this input. -/
theorem auth_error_body_shape_cex_C4 :
    (authMiddleware (fun _ => none) (fun _ _ _ _ _ => "") [] 0 []).status = some 401 ∧
    (authMiddleware (fun _ => none) (fun _ _ _ _ _ => "") [] 0 []).body.lookup "code"
      = none ∧
    (authMiddleware (fun _ => none) (fun _ _ _ _ _ => "") [] 0 []).body.lookup "error"
      = some "Authorization header required" := by
  decide

/-- C4 (amended): for every request whose Authorization header is absent or
not of the form `Bearer t`, the gateway responds 401 with the JSON error
body the source writes (an `error` field, no `code` field), and neither the
Auth collaborator nor any upstream is called: `verifyCalled` is false and
the chain never proceeds.  The cache is also untouched. -/
theorem auth_reject_unauthorized_C4
    (verify : String → Option VerifyTokenResponse)
    (jwtGen : String → String → String → List String → List String → String)
    (cache : Cache) (now : ℚ) (reqHeaders : Headers)
    (hbad : headerGet reqHeaders "Authorization" = "" ∨
      (goSplit (headerGet reqHeaders "Authorization") ' ').length ≠ 2 ∨
      (goSplit (headerGet reqHeaders "Authorization") ' ').headD "" ≠ "Bearer") :
    (authMiddleware verify jwtGen cache now reqHeaders).status = some 401 ∧
    ((authMiddleware verify jwtGen cache now reqHeaders).body
        = [("error", "Authorization header required")] ∨
      (authMiddleware verify jwtGen cache now reqHeaders).body
        = [("error", "Invalid authorization header format")]) ∧
    (authMiddleware verify jwtGen cache now reqHeaders).verifyCalled = false ∧
    (authMiddleware verify jwtGen cache now reqHeaders).proceeded = false ∧
    (authMiddleware verify jwtGen cache now reqHeaders).cache = cache := by
  rcases authMiddleware_spec verify jwtGen cache now reqHeaders with ⟨_, heq⟩ |
      ⟨_, _, heq⟩ | ⟨he, hlen, hhd, _⟩
  · rw [heq]
    exact ⟨rfl, Or.inl rfl, rfl, rfl, rfl⟩
  · rw [heq]
    exact ⟨rfl, Or.inr rfl, rfl, rfl, rfl⟩
  · rcases hbad with hb | hb | hb
    · exact absurd hb he
    · exact absurd hlen hb
    · exact absurd hhd hb

/-- Witness for C4 at a concrete input: a request carrying only a spoofed
tenant header and no Authorization header. -/
theorem auth_reject_unauthorized_C4_witness :
    (authMiddleware (fun _ => none) (fun _ _ _ _ _ => "") [] 0
        [("X-Tenant-ID", "spoof")]).status = some 401 ∧
    ((authMiddleware (fun _ => none) (fun _ _ _ _ _ => "") [] 0
        [("X-Tenant-ID", "spoof")]).body
        = [("error", "Authorization header required")] ∨
      (authMiddleware (fun _ => none) (fun _ _ _ _ _ => "") [] 0
        [("X-Tenant-ID", "spoof")]).body
        = [("error", "Invalid authorization header format")]) ∧
    (authMiddleware (fun _ => none) (fun _ _ _ _ _ => "") [] 0
        [("X-Tenant-ID", "spoof")]).verifyCalled = false ∧
    (authMiddleware (fun _ => none) (fun _ _ _ _ _ => "") [] 0
        [("X-Tenant-ID", "spoof")]).proceeded = false ∧
    (authMiddleware (fun _ => none) (fun _ _ _ _ _ => "") [] 0
        [("X-Tenant-ID", "spoof")]).cache = [] :=
  auth_reject_unauthorized_C4 (fun _ => none) (fun _ _ _ _ _ => "") [] 0
    [("X-Tenant-ID", "spoof")] (Or.inl (by decide))

/-- C5: the X-Tenant-ID and X-Internal-Token headers forwarded upstream are
set from the verified record — replaced, never merged — so they do not
depend on the client-supplied values of those headers: any two requests
with the same Authorization header that both pass authentication are
forwarded with identical values of the two headers. -/
theorem forwarded_headers_replaced_C5 :
    (∀ (jwtGen : String → String → String → List String → List String → String)
        (h : Headers) (r : VerifyTokenResponse),
      headerGet (injectHeaders jwtGen h r) "X-Tenant-ID" = r.tenantId ∧
      headerGet (injectHeaders jwtGen h r) "X-Internal-Token"
        = jwtGen r.userId r.tenantId r.email r.roles r.permissions) ∧
    (∀ (verify : String → Option VerifyTokenResponse)
        (jwtGen : String → String → String → List String → List String → String)
        (cache : Cache) (now : ℚ) (h1 h2 : Headers),
      headerGet h1 "Authorization" = headerGet h2 "Authorization" →
      (authMiddleware verify jwtGen cache now h1).proceeded = true →
      (authMiddleware verify jwtGen cache now h2).proceeded = true →
      headerGet (authMiddleware verify jwtGen cache now h1).headers "X-Tenant-ID"
        = headerGet (authMiddleware verify jwtGen cache now h2).headers "X-Tenant-ID" ∧
      headerGet (authMiddleware verify jwtGen cache now h1).headers "X-Internal-Token"
        = headerGet (authMiddleware verify jwtGen cache now h2).headers
            "X-Internal-Token") := by
  constructor
  · intro jwtGen h r
    exact ⟨injectHeaders_tenant jwtGen h r, injectHeaders_token jwtGen h r⟩
  · intro verify jwtGen cache now h1 h2 hAuth hp1 hp2
    obtain ⟨r1, hr1, hh1⟩ :=
      authMiddleware_proceeded_headers verify jwtGen cache now h1 hp1
    obtain ⟨r2, hr2, hh2⟩ :=
      authMiddleware_proceeded_headers verify jwtGen cache now h2 hp2
    have hdet := (authMiddleware_det verify jwtGen cache now h1 h2 hAuth).1
    rw [hr1, hr2] at hdet
    cases hdet
    rw [hh1, hh2]
    constructor
    · rw [injectHeaders_tenant, injectHeaders_tenant]
    · rw [injectHeaders_token, injectHeaders_token]

/-- A concrete valid verified-token record used by witnesses. -/
def sampleRecord : Gateway.Auth.VerifyTokenResponse :=
  ⟨true, "user-1", "tenant-1", "user@example.com", ["user"], ["read"], []⟩

/-- A concrete invalid record (failed verification) used by witnesses. -/
def sampleInvalidRecord : Gateway.Auth.VerifyTokenResponse :=
  ⟨false, "", "", "", [], [], []⟩

/-- A concrete Auth collaborator: verifies exactly the token `tok`. -/
def sampleVerify : String → Option Gateway.Auth.VerifyTokenResponse :=
  fun s => if s = "tok" then some sampleRecord else none

/-- A concrete internal-token signer used by witnesses. -/
def sampleJwt : String → String → String → List String → List String → String :=
  fun u tn _ _ _ => u ++ ":" ++ tn

/-- C2: the verifier looks up `token:` + t in the cache; a valid cached
record is served without calling the Auth collaborator; on a miss the
collaborator is called and a successful result is stored with absolute
expiration now + 30 minutes (hence TTL exactly 30 minutes, which is at most
30 minutes); consequently a second authenticated call with the same bearer
within those 30 minutes is served from the cache with the collaborator
invoked zero further times — one invocation across the two calls. -/
theorem auth_token_cache_once_C2
    (verify : String → Option VerifyTokenResponse)
    (jwtGen : String → String → String → List String → List String → String)
    (cache : Cache) (now t2 : ℚ) (h1 h2 : Headers) (t : String)
    (hA1 : headerGet h1 "Authorization" = "Bearer " ++ t)
    (hA2 : headerGet h2 "Authorization" = "Bearer " ++ t)
    (hsplit : goSplit ("Bearer " ++ t) ' ' = ["Bearer", t]) :
    (∀ r, cacheGet cache now ("token:" ++ t) = some r → r.valid = true →
      authMiddleware verify jwtGen cache now h1 = hitStep jwtGen cache h1 r) ∧
    (∀ r, cacheGet cache now ("token:" ++ t) = none → verify t = some r →
      r.valid = true →
      (authMiddleware verify jwtGen cache now h1).verifyCalled = true ∧
      (authMiddleware verify jwtGen cache now h1).proceeded = true ∧
      (authMiddleware verify jwtGen cache now h1).cache
        = cacheSet cache now ("token:" ++ t) r (30 * 60) ∧
      (authMiddleware verify jwtGen cache now h1).cache.lookup ("token:" ++ t)
        = some ⟨r, now + 30 * 60⟩ ∧
      (t2 < now + 30 * 60 →
        authMiddleware verify jwtGen
            (authMiddleware verify jwtGen cache now h1).cache t2 h2
          = hitStep jwtGen (authMiddleware verify jwtGen cache now h1).cache h2 r)) := by
  constructor
  · intro r hcg hv
    exact authMiddleware_hit verify jwtGen cache now h1 t r hA1 hsplit hcg hv
  · intro r hnone hvf hv
    have hmiss := authMiddleware_miss verify jwtGen cache now h1 t hA1 hsplit
      (Or.inl hnone)
    rcases authVerifyPath_spec verify jwtGen cache now h1 ("token:" ++ t) t with
      ⟨r', hvf', hv', heq⟩ | ⟨hfail, _⟩
    · rw [hvf] at hvf'
      cases hvf'
      rw [hmiss, heq]
      refine ⟨rfl, rfl, rfl, ?_, ?_⟩
      · simp [cacheSet, List.lookup]
      · intro ht2
        have hcg2 : cacheGet (cacheSet cache now ("token:" ++ t) r (30 * 60)) t2
            ("token:" ++ t) = some r := by
          rw [cacheGet_cacheSet_self]
          exact if_pos ht2
        exact authMiddleware_hit verify jwtGen _ t2 h2 t r hA2 hsplit hcg2 hv
    · rcases hfail with hvn | ⟨r', hvf', hv'⟩
      · rw [hvf] at hvn
        cases hvn
      · rw [hvf] at hvf'
        cases hvf'
        rw [hv] at hv'
        cases hv'

/-- Witness for C2 at concrete inputs: empty cache, token `tok`, first call
at t = 0, second at t = 60 s; the collaborator is invoked on the first call
only and the second call is served from the cache. -/
theorem auth_token_cache_once_C2_witness :
    (authMiddleware sampleVerify sampleJwt [] 0
        [("Authorization", "Bearer tok")]).verifyCalled = true ∧
    (authMiddleware sampleVerify sampleJwt [] 0
        [("Authorization", "Bearer tok")]).proceeded = true ∧
    (authMiddleware sampleVerify sampleJwt [] 0
        [("Authorization", "Bearer tok")]).cache
      = cacheSet [] 0 ("token:" ++ "tok") sampleRecord (30 * 60) ∧
    (authMiddleware sampleVerify sampleJwt [] 0
        [("Authorization", "Bearer tok")]).cache.lookup ("token:" ++ "tok")
      = some ⟨sampleRecord, 0 + 30 * 60⟩ ∧
    authMiddleware sampleVerify sampleJwt
        (authMiddleware sampleVerify sampleJwt [] 0
          [("Authorization", "Bearer tok")]).cache 60
        [("Authorization", "Bearer tok")]
      = hitStep sampleJwt
          (authMiddleware sampleVerify sampleJwt [] 0
            [("Authorization", "Bearer tok")]).cache
          [("Authorization", "Bearer tok")] sampleRecord := by
  have h := (auth_token_cache_once_C2 sampleVerify sampleJwt [] 0 60
      [("Authorization", "Bearer tok")] [("Authorization", "Bearer tok")] "tok"
      (by decide) (by decide) (by decide)).2 sampleRecord (by decide)
      (by decide) (by decide)
  exact ⟨h.1, h.2.1, h.2.2.1, h.2.2.2.1, h.2.2.2.2 (by norm_num)⟩

/-- C10: the middleware never caches a negative verification result — a
request that does not proceed leaves the cache exactly as it was; a cached
record with valid = false is ignored on lookup and verification is
re-attempted against the collaborator; and a request served without
calling the collaborator carries a record that is valid. -/
theorem auth_no_negative_cache_C10
    (verify : String → Option VerifyTokenResponse)
    (jwtGen : String → String → String → List String → List String → String)
    (cache : Cache) (now : ℚ) :
    (∀ h, (authMiddleware verify jwtGen cache now h).proceeded = false →
      (authMiddleware verify jwtGen cache now h).cache = cache) ∧
    (∀ h t r, headerGet h "Authorization" = "Bearer " ++ t →
      goSplit ("Bearer " ++ t) ' ' = ["Bearer", t] →
      cacheGet cache now ("token:" ++ t) = some r → r.valid = false →
      (authMiddleware verify jwtGen cache now h).verifyCalled = true) ∧
    (∀ h, (authMiddleware verify jwtGen cache now h).verifyCalled = false →
      (authMiddleware verify jwtGen cache now h).proceeded = true →
      ∃ r, (authMiddleware verify jwtGen cache now h).record = some r ∧
        r.valid = true) := by
  refine ⟨?_, ?_, ?_⟩
  · intro h hp
    rcases authMiddleware_spec verify jwtGen cache now h with ⟨_, heq⟩ | ⟨_, _, heq⟩ |
        ⟨_, _, _, hbr⟩
    · rw [heq]
      rfl
    · rw [heq]
      rfl
    · rcases hbr with ⟨r, _, _, heq⟩ | ⟨_, heq⟩
      · rw [heq] at hp
        simp [hitStep] at hp
      · rw [heq] at hp ⊢
        rcases authVerifyPath_spec verify jwtGen cache now h
            ("token:" ++ (goSplit (headerGet h "Authorization") ' ').getD 1 "")
            ((goSplit (headerGet h "Authorization") ' ').getD 1 "") with
          ⟨r, _, _, heq2⟩ | ⟨_, heq2⟩
        · rw [heq2] at hp
          simp at hp
        · rw [heq2]
  · intro h t r hA hs hcg hv
    have hmiss := authMiddleware_miss verify jwtGen cache now h t hA hs
      (Or.inr ⟨r, hcg, hv⟩)
    rw [hmiss]
    exact authVerifyPath_verifyCalled verify jwtGen cache now h _ _
  · intro h hvc hp
    rcases authMiddleware_spec verify jwtGen cache now h with ⟨_, heq⟩ | ⟨_, _, heq⟩ |
        ⟨_, _, _, hbr⟩
    · rw [heq] at hp
      simp [rejectStep] at hp
    · rw [heq] at hp
      simp [rejectStep] at hp
    · rcases hbr with ⟨r, _, hvalid, heq⟩ | ⟨_, heq⟩
      · rw [heq]
        exact ⟨r, rfl, hvalid⟩
      · rw [heq] at hvc
        have hone := authVerifyPath_verifyCalled verify jwtGen cache now h
          ("token:" ++ (goSplit (headerGet h "Authorization") ' ').getD 1 "")
          ((goSplit (headerGet h "Authorization") ' ').getD 1 "")
        rw [hvc] at hone
        simp at hone

/-- Witness for C10 at concrete inputs: a rejected request leaves an empty
cache empty; an invalid record cached under `token:tok` forces a fresh
collaborator call; a cache-served request carries a valid record. -/
theorem auth_no_negative_cache_C10_witness :
    (authMiddleware sampleVerify sampleJwt [] 0 []).cache = [] ∧
    (authMiddleware sampleVerify sampleJwt
        [("token:tok", ⟨sampleInvalidRecord, 100⟩)] 0
        [("Authorization", "Bearer tok")]).verifyCalled = true ∧
    ∃ r, (authMiddleware sampleVerify sampleJwt
        [("token:tok", ⟨sampleRecord, 100⟩)] 0
        [("Authorization", "Bearer tok")]).record = some r ∧ r.valid = true := by
  refine ⟨?_, ?_, ?_⟩
  · exact (auth_no_negative_cache_C10 sampleVerify sampleJwt [] 0).1 [] (by decide)
  · exact (auth_no_negative_cache_C10 sampleVerify sampleJwt
      [("token:tok", ⟨sampleInvalidRecord, 100⟩)] 0).2.1
      [("Authorization", "Bearer tok")] "tok" sampleInvalidRecord (by decide)
      (by decide) (by decide) (by decide)
  · exact (auth_no_negative_cache_C10 sampleVerify sampleJwt
      [("token:tok", ⟨sampleRecord, 100⟩)] 0).2.2
      [("Authorization", "Bearer tok")] (by decide) (by decide)

/-- C9: `ExecuteContext` with an already-canceled context returns
(nil, ctx.Err()) without invoking the protected function and without
creating or touching any breaker — the registry is returned unchanged;
with a live context it is definitionally the body of `Execute`. -/
theorem execute_context_cancel_C9 {α : Type} (ctx : GoContext) (reg : Registry)
    (now : ℚ) (name : String) (fn : Option α × Option GoErr) :
    (ctx.canceled = true →
      ExecuteContext ctx reg now name fn
        = ⟨reg, none, some ctx.errVal, false⟩ ∧
      ExecuteContext ctx reg now name fn
        = ⟨reg, none, ctx.err, false⟩) ∧
    (ctx.canceled = false →
      ExecuteContext ctx reg now name fn = Execute reg now name fn) := by
  constructor
  · intro hc
    constructor
    · simp [ExecuteContext, GoContext.err, hc]
    · simp [ExecuteContext, hc]
  · intro hc
    simp [ExecuteContext, Execute, hc]

/-- Witness for C9 at concrete inputs: a canceled context short-circuits
with the cancellation error and an untouched empty registry; a live
context behaves as `Execute`. -/
theorem execute_context_cancel_C9_witness :
    (ExecuteContext ⟨true, GoErr.ctxCanceled⟩ ([] : Registry) 0 "user-service"
        ((some "ok", none) : Option String × Option GoErr)
      = ⟨[], none, some GoErr.ctxCanceled, false⟩) ∧
    (ExecuteContext ⟨false, GoErr.ctxCanceled⟩ ([] : Registry) 0 "user-service"
        ((some "ok", none) : Option String × Option GoErr)
      = Execute ([] : Registry) 0 "user-service" (some "ok", none)) :=
  ⟨((execute_context_cancel_C9 ⟨true, GoErr.ctxCanceled⟩ [] 0 "user-service"
      (some "ok", none)).1 rfl).1,
   (execute_context_cancel_C9 ⟨false, GoErr.ctxCanceled⟩ [] 0 "user-service"
      (some "ok", none)).2 rfl⟩

namespace Gateway.CB

/-- A fresh breaker created by the registry. -/
theorem GetBreaker_fresh (reg : Registry) (now : ℚ) (name : String)
    (hnone : reg.lookup name = none) :
    (GetBreaker reg now name).2
      = { settings := defaultSettings name, state := .closed
          counts := Counts.zero
          expiry := now + (defaultSettings name).intervalSec } := by
  simp [GetBreaker, hnone]

/-- The configured ReadyToTrip predicate, characterized over the rationals:
it holds exactly when at least 3 requests were seen and the failure ratio
is at least 3/5. -/
theorem readyToTrip_iff (c : Counts) :
    readyToTrip c = true ↔
      3 ≤ c.requests ∧ (3 : ℚ) / 5 ≤ (c.totalFailures : ℚ) / (c.requests : ℚ) := by
  unfold readyToTrip
  rw [Bool.and_eq_true, decide_eq_true_iff, decide_eq_true_iff]
  constructor
  · rintro ⟨h1, h2⟩
    refine ⟨h1, ?_⟩
    have hr : (0 : ℚ) < (c.requests : ℚ) := by
      exact_mod_cast Nat.lt_of_lt_of_le (by norm_num) h1
    rw [div_le_div_iff₀ (by norm_num) hr]
    have hc : (3 * c.requests : ℚ) ≤ (5 * c.totalFailures : ℚ) := by exact_mod_cast h2
    linarith
  · rintro ⟨h1, h2⟩
    refine ⟨h1, ?_⟩
    have hr : (0 : ℚ) < (c.requests : ℚ) := by
      exact_mod_cast Nat.lt_of_lt_of_le (by norm_num) h1
    rw [div_le_div_iff₀ (by norm_num) hr] at h2
    have hc : (3 * c.requests : ℚ) ≤ (5 * c.totalFailures : ℚ) := by linarith
    exact_mod_cast hc

/-- A CLOSED breaker inside its interval does not roll its counters. -/
theorem updateState_closed (b : Breaker) (now : ℚ)
    (hst : b.state = .closed) (hnow : now < b.expiry) :
    b.updateState now = b := by
  simp [Breaker.updateState, hst, not_le.mpr hnow]

/-- Inside the interval, a CLOSED breaker transitions to OPEN on a
completed call exactly when the configured trip predicate holds on the
updated counters: on a failed call with the failure tallied, on a
successful call with the success tallied. -/
theorem execute_closed_opens_iff {α : Type} (b : Breaker) (now : ℚ)
    (v : Option α) (e : GoErr)
    (htrip : b.settings.trip = readyToTrip)
    (hst : b.state = .closed) (hnow : now < b.expiry) :
    (((b.execute now (v, some e)).breaker.state = BState.opened) ↔
      readyToTrip (b.counts.onRequest.onFailure) = true) ∧
    (((b.execute now (v, none)).breaker.state = BState.opened) ↔
      readyToTrip (b.counts.onRequest.onSuccess) = true) := by
  have hus : b.updateState now = b := updateState_closed b now hst hnow
  constructor
  · by_cases ht : readyToTrip (b.counts.onRequest.onFailure) = true
    · simp [Breaker.execute, hus, hst, htrip, ht]
    · simp [Breaker.execute, hus, hst, htrip, ht]
  · by_cases ht : readyToTrip (b.counts.onRequest.onSuccess) = true
    · simp [Breaker.execute, hus, hst, htrip, ht]
    · simp [Breaker.execute, hus, hst, htrip, ht]

end Gateway.CB

/-- C1: every breaker the registry creates carries the source settings
(MaxRequests 3, Interval 60 s, Timeout 30 s) and the ReadyToTrip predicate
`requests ≥ 3 ∧ failures/requests ≥ 0.6` (rendered exactly over ℚ); in the
CLOSED state, inside the interval, the OPEN transition happens on a
completed call — failed or successful — exactly when that predicate holds
on the updated counters; a breaker fed 2 failed requests and 0 successes
stays CLOSED, and one fed 3 failed requests opens. -/
theorem breaker_trip_predicate_C1 :
    (∀ (reg : Registry) (now : ℚ) (name : String), reg.lookup name = none →
      (GetBreaker reg now name).2.settings.maxRequests = 3 ∧
      (GetBreaker reg now name).2.settings.intervalSec = 60 ∧
      (GetBreaker reg now name).2.settings.timeoutSec = 30 ∧
      (GetBreaker reg now name).2.settings.trip = readyToTrip ∧
      (GetBreaker reg now name).2.state = BState.closed) ∧
    (∀ c : Counts, readyToTrip c = true ↔
      3 ≤ c.requests ∧ (3 : ℚ) / 5 ≤ (c.totalFailures : ℚ) / (c.requests : ℚ)) ∧
    (∀ (α : Type) (b : Breaker) (now : ℚ) (v : Option α) (e : GoErr),
      b.settings.trip = readyToTrip → b.state = BState.closed → now < b.expiry →
      (((b.execute now (v, some e)).breaker.state = BState.opened) ↔
        readyToTrip (b.counts.onRequest.onFailure) = true)) ∧
    (∀ (α : Type) (b : Breaker) (now : ℚ) (v : Option α),
      b.settings.trip = readyToTrip → b.state = BState.closed → now < b.expiry →
      (((b.execute now (v, (none : Option GoErr))).breaker.state = BState.opened) ↔
        readyToTrip (b.counts.onRequest.onSuccess) = true)) ∧
    (runFailures (GetBreaker ([] : Registry) 0 "user").2 0 2).state = BState.closed ∧
    (runFailures (GetBreaker ([] : Registry) 0 "user").2 0 3).state = BState.opened := by
  refine ⟨?_, readyToTrip_iff, ?_, ?_, ?_, ?_⟩
  · intro reg now name hnone
    rw [GetBreaker_fresh reg now name hnone]
    exact ⟨rfl, rfl, rfl, rfl, rfl⟩
  · intro α b now v e htrip hst hnow
    exact (execute_closed_opens_iff b now v e htrip hst hnow).1
  · intro α b now v htrip hst hnow
    exact (execute_closed_opens_iff b now v GoErr.errOpenState htrip hst hnow).2
  · norm_num [runFailures, Breaker.execute, Breaker.updateState, GetBreaker,
      defaultSettings, readyToTrip, Counts.onRequest, Counts.onFailure, Counts.zero]
  · norm_num [runFailures, Breaker.execute, Breaker.updateState, GetBreaker,
      defaultSettings, readyToTrip, Counts.onRequest, Counts.onFailure, Counts.zero]

/-- Witness for C1 at concrete inputs: the fresh breaker for the name
`user` has the default settings, and the trip predicate is false at 2
failures out of 2 requests and true at 3 failures out of 3. -/
theorem breaker_trip_predicate_C1_witness :
    (GetBreaker ([] : Registry) 0 "user").2.settings.maxRequests = 3 ∧
    (GetBreaker ([] : Registry) 0 "user").2.settings.trip = readyToTrip ∧
    (GetBreaker ([] : Registry) 0 "user").2.state = BState.closed ∧
    (3 ≤ (2 : ℕ) ∧ (3 : ℚ) / 5 ≤ ((2 : ℕ) : ℚ) / ((2 : ℕ) : ℚ) → False) ∧
    (3 ≤ (3 : ℕ) ∧ (3 : ℚ) / 5 ≤ ((3 : ℕ) : ℚ) / ((3 : ℕ) : ℚ)) := by
  have h := breaker_trip_predicate_C1
  refine ⟨(h.1 [] 0 "user" rfl).1, (h.1 [] 0 "user" rfl).2.2.2.1,
    (h.1 [] 0 "user" rfl).2.2.2.2, ?_, ?_⟩
  · intro hc
    have := (h.2.1 ⟨2, 0, 2, 0, 2⟩).mpr ⟨hc.1, hc.2⟩
    simp [readyToTrip] at this
  · exact (h.2.1 ⟨3, 0, 3, 0, 3⟩).mp (by decide)

/-- C6: the rate-limit middleware composes the bucket key as
`tenantId + ":" + remoteIP` when the tenant header is non-empty and as
`remoteIP` otherwise; whenever the bucket rejects, the response is 429 with
the JSON body `error = Rate limit exceeded` and the chain never proceeds,
and whenever it admits, no error is written and the chain proceeds. -/
theorem rate_limit_key_reject_C6 (rl : RateLimiter) (now : ℚ)
    (clientIP tenantHeader : String) :
    ((rateLimitMiddleware rl now clientIP tenantHeader).key
      = if tenantHeader ≠ "" then tenantHeader ++ ":" ++ clientIP else clientIP) ∧
    (((GetLimiter rl now (if tenantHeader ≠ "" then tenantHeader ++ ":" ++ clientIP
          else clientIP)).2.allow now).2 = false →
      (rateLimitMiddleware rl now clientIP tenantHeader).status = some 429 ∧
      (rateLimitMiddleware rl now clientIP tenantHeader).body
        = [("error", "Rate limit exceeded")] ∧
      (rateLimitMiddleware rl now clientIP tenantHeader).proceeded = false) ∧
    (((GetLimiter rl now (if tenantHeader ≠ "" then tenantHeader ++ ":" ++ clientIP
          else clientIP)).2.allow now).2 = true →
      (rateLimitMiddleware rl now clientIP tenantHeader).status = none ∧
      (rateLimitMiddleware rl now clientIP tenantHeader).proceeded = true) := by
  refine ⟨?_, ?_, ?_⟩
  · simp only [rateLimitMiddleware]
    rcases hq : ((GetLimiter rl now (if tenantHeader ≠ "" then
        tenantHeader ++ ":" ++ clientIP else clientIP)).2.allow now).2 <;> simp
  · intro hrej
    simp only [rateLimitMiddleware]
    rw [hrej]
    simp
  · intro hadm
    simp only [rateLimitMiddleware]
    rw [hadm]
    simp

/-- Witness for C6 at concrete inputs: limiter configured with burst 0, so
the very first request is rejected; the key composes tenant and IP. -/
theorem rate_limit_key_reject_C6_witness :
    (rateLimitMiddleware (NewRateLimiter 1 0) 0 "10.0.0.1" "t1").key
      = "t1:10.0.0.1" ∧
    (rateLimitMiddleware (NewRateLimiter 1 0) 0 "10.0.0.1" "t1").status = some 429 ∧
    (rateLimitMiddleware (NewRateLimiter 1 0) 0 "10.0.0.1" "t1").body
      = [("error", "Rate limit exceeded")] ∧
    (rateLimitMiddleware (NewRateLimiter 1 0) 0 "10.0.0.1" "t1").proceeded = false := by
  have h := rate_limit_key_reject_C6 (NewRateLimiter 1 0) 0 "10.0.0.1" "t1"
  have hkey : (if ("t1" : String) ≠ "" then "t1" ++ ":" ++ "10.0.0.1"
      else "10.0.0.1") = "t1:10.0.0.1" := by decide
  have hrej : ((GetLimiter (NewRateLimiter 1 0) 0 (if ("t1" : String) ≠ "" then
      "t1" ++ ":" ++ "10.0.0.1" else "10.0.0.1")).2.allow 0).2 = false := by
    rw [hkey]
    norm_num [GetLimiter, NewRateLimiter, TokenBucket.new, TokenBucket.allow,
      TokenBucket.advance, List.lookup]
  obtain ⟨h1, h2, h3⟩ := h.2.1 hrej
  exact ⟨h.1.trans hkey, h1, h2, h3⟩

/-- C8: one sweep pass retains an entry exactly when its idle time
`now - lastAccess` is at most the 10-minute IdleTTL (so removes exactly
those idle strictly longer); the sweeper loop terminates as soon as the
cancellation event arrives, ignoring everything after it, and its ticker
period is the 10 minutes of the source. -/
theorem cleanup_sweep_C8 :
    (∀ (now : ℚ) (ls : Limiters) (kv : String × LimiterEntry),
      kv ∈ sweepPass now ls ↔ kv ∈ ls ∧ now - kv.2.lastAccess ≤ idleTTL) ∧
    (∀ (ticks : List ℚ) (post : List SweepEvent) (ls : Limiters),
      cleanupLimiters (ticks.map SweepEvent.tick ++ SweepEvent.cancel :: post) ls
        = (ticks.foldl (fun m t => sweepPass t m) ls, true)) ∧
    cleanupInterval = 10 * 60 ∧ idleTTL = 10 * 60 := by
  refine ⟨?_, ?_, rfl, rfl⟩
  · intro now ls kv
    simp [sweepPass, List.mem_filter, not_lt]
  · intro ticks post ls
    induction ticks generalizing ls with
    | nil => simp [cleanupLimiters]
    | cons t ts ih => simp [cleanupLimiters, ih]

/-- Witness for C8 at concrete inputs: at a sweep at t = 700 s, an entry
last accessed at t = 200 s (idle 500 s ≤ 600 s) is retained, one last
accessed at t = 0 (idle 700 s > 600 s) is removed, and the loop stops at
the cancellation event, never seeing a later tick. -/
theorem cleanup_sweep_C8_witness :
    ("m", (⟨TokenBucket.new 1 1 0, 200⟩ : LimiterEntry)) ∈
      sweepPass 700 [("k", ⟨TokenBucket.new 1 1 0, 0⟩),
        ("m", ⟨TokenBucket.new 1 1 0, 200⟩)] ∧
    (("k", (⟨TokenBucket.new 1 1 0, 0⟩ : LimiterEntry)) ∈
      sweepPass 700 [("k", ⟨TokenBucket.new 1 1 0, 0⟩),
        ("m", ⟨TokenBucket.new 1 1 0, 200⟩)] → False) ∧
    cleanupLimiters ([(700 : ℚ)].map SweepEvent.tick ++ SweepEvent.cancel ::
        [SweepEvent.tick 9999])
        [("k", ⟨TokenBucket.new 1 1 0, 0⟩), ("m", ⟨TokenBucket.new 1 1 0, 200⟩)]
      = ([(700 : ℚ)].foldl (fun m t => sweepPass t m)
          [("k", ⟨TokenBucket.new 1 1 0, 0⟩), ("m", ⟨TokenBucket.new 1 1 0, 200⟩)],
         true) := by
  have h := cleanup_sweep_C8
  refine ⟨(h.1 700 _ _).mpr ⟨by simp, by norm_num [idleTTL]⟩, ?_,
    h.2.1 [700] [SweepEvent.tick 9999] _⟩
  intro hk
  have hmem := ((h.1 700 _ _).mp hk).2
  norm_num [idleTTL] at hmem

namespace Gateway.Proxy

/-- Once the tenant-default flag is cleared, every dispatch the failover
chain issues goes to the resolved system default and none is selected via
the tenant flag. -/
theorem handleFailover_empty (env : ProxyEnv) : ∀ (fuel : Nat) (reason : String),
    ∀ a ∈ (handleFailover env fuel "" reason).1,
      a.1 = false ∧ a.2 = env.resolve "dashboard-service" := by
  intro fuel
  induction fuel with
  | zero =>
    intro reason a ha
    simp [handleFailover] at ha
  | succ n ih =>
    intro reason a ha
    by_cases hd : env.resolve "dashboard-service" ≠ ""
    · by_cases hp : env.parseOk (env.resolve "dashboard-service") = true
      · by_cases hk : env.dispatchOk (env.resolve "dashboard-service") = true
        · simp [handleFailover, hd, hp, hk] at ha
          simp [ha]
        · simp only [Bool.not_eq_true] at hk
          simp [handleFailover, hd, hp, hk] at ha
          rcases ha with ha | ha
          · simp [ha]
          · exact ih (env.errMsg (env.resolve "dashboard-service")) a ha
      · simp only [Bool.not_eq_true] at hp
        simp [handleFailover, hd, hp] at ha
    · simp [handleFailover, hd] at ha

end Gateway.Proxy

/-- C3 counterexample: when the tenant default service is itself
`dashboard-service` (the hardcoded system default), its resolved URL is
dispatched to once through the tenant branch and again through the
system-default branch within the same request, so the tenant default
service IS dispatched to a second time — refuting the claim as stated.
The environment resolves only `dashboard-service` and every dispatch
fails. -/
theorem failover_tenant_redispatch_cex_C3 :
    (ProxyEnv.resolve
        ⟨fun s => if s = "dashboard-service" then "http://dash" else "",
          fun _ => true, fun _ => false, fun _ => "connection refused"⟩
        "dashboard-service" = "http://dash") ∧
    ("dashboard-service" : String) ≠ "" ∧
    2 ≤ ((handleFailover
        ⟨fun s => if s = "dashboard-service" then "http://dash" else "",
          fun _ => true, fun _ => false, fun _ => "connection refused"⟩
        3 "dashboard-service" "boom").1.countP (fun a => a.2 == "http://dash")) := by
  refine ⟨by decide, by decide, ?_⟩
  decide

/-- C3 (amended): for every failover run — any environment, fuel, tenant
flag and reason — (a) at most one dispatch is selected through the
tenant-default flag, and when the flag is set and its target parses it is
the first dispatch; every dispatch after the first goes to the resolved
system default `dashboard-service`, the flag having been cleared before the
retry; (b) when the flag is empty and the system default does not resolve,
the chain issues no dispatch and answers a 302 redirect to
`/auth/login?error=` followed by the url-encoded reason.  The tenant
default service can be dispatched a second time only through the
system-default branch, i.e. when it coincides with `dashboard-service`. -/
theorem failover_chain_order_C3 (env : ProxyEnv) (fuel : Nat) (td reason : String) :
    ((handleFailover env fuel td reason).1.countP (fun a => a.1) ≤ 1) ∧
    (∀ a ∈ (handleFailover env fuel td reason).1, a.1 = false →
      a.2 = env.resolve "dashboard-service") ∧
    (td ≠ "" → 0 < fuel → env.parseOk (env.resolve td) = true →
      (handleFailover env fuel td reason).1.head? = some (true, env.resolve td)) ∧
    (∀ a ∈ (handleFailover env fuel td reason).1.tail, a.1 = false) ∧
    (td = "" → env.resolve "dashboard-service" = "" → 0 < fuel →
      handleFailover env fuel td reason
        = ([], POutcome.redirect ("/auth/login?error=" ++ queryEscape reason))) := by
  by_cases htd : td ≠ ""
  · cases fuel with
    | zero =>
      refine ⟨by simp [handleFailover], by simp [handleFailover], ?_, by simp [handleFailover], ?_⟩
      · intro _ h0
        exact absurd h0 (by simp)
      · intro h0
        exact absurd h0 htd
    | succ n =>
      by_cases hp : env.parseOk (env.resolve td) = true
      · by_cases hk : env.dispatchOk (env.resolve td) = true
        · refine ⟨?_, ?_, ?_, ?_, ?_⟩
          · simp [handleFailover, htd, hp, hk, List.countP_cons]
          · intro a ha hfalse
            simp [handleFailover, htd, hp, hk] at ha
            rw [ha] at hfalse
            cases hfalse
          · intro _ _ _
            simp [handleFailover, htd, hp, hk]
          · intro a ha
            simp [handleFailover, htd, hp, hk] at ha
          · intro h0
            exact absurd h0 htd
        · simp only [Bool.not_eq_true] at hk
          have hrest := handleFailover_empty env n (env.errMsg (env.resolve td))
          refine ⟨?_, ?_, ?_, ?_, ?_⟩
          · simp only [handleFailover, htd, if_pos htd, hp, hk]
            simp only [Bool.not_eq_true', List.countP_cons]
            have hzero : (handleFailover env n "" (env.errMsg (env.resolve td))).1.countP
                (fun a => a.1) = 0 := by
              rw [List.countP_eq_zero]
              intro a ha
              simp [(hrest a ha).1]
            simp [hzero]
          · intro a ha hfalse
            simp [handleFailover, htd, hp, hk] at ha
            rcases ha with ha | ha
            · rw [ha] at hfalse
              cases hfalse
            · exact (hrest a ha).2
          · intro _ _ _
            simp [handleFailover, htd, hp, hk]
          · intro a ha
            simp [handleFailover, htd, hp, hk] at ha
            exact (hrest a ha).1
          · intro h0
            exact absurd h0 htd
      · simp only [Bool.not_eq_true] at hp
        refine ⟨?_, ?_, ?_, ?_, ?_⟩
        · simp [handleFailover, htd, hp]
        · intro a ha
          simp [handleFailover, htd, hp] at ha
        · intro _ _ hptrue
          rw [hp] at hptrue
          cases hptrue
        · intro a ha
          simp [handleFailover, htd, hp] at ha
        · intro h0
          exact absurd h0 htd
  · simp only [not_not] at htd
    subst htd
    have hall := handleFailover_empty env fuel reason
    refine ⟨?_, ?_, ?_, ?_, ?_⟩
    · have hzero : (handleFailover env fuel "" reason).1.countP (fun a => a.1) = 0 := by
        rw [List.countP_eq_zero]
        intro a ha
        simp [(hall a ha).1]
      simp [hzero]
    · intro a ha _
      exact (hall a ha).2
    · intro hne
      exact absurd rfl hne
    · intro a ha
      exact (hall a (List.mem_of_mem_tail ha)).1
    · intro _ hd hfuel
      cases fuel with
      | zero => cases hfuel
      | succ n => simp [handleFailover, hd]

/-- Witness for C3 at concrete inputs: tenant default `cms-service` is
dispatched first and no later dispatch is selected via the tenant flag;
with nothing resolvable and an empty flag, the chain redirects to the auth
login page with the url-encoded reason and issues no dispatch. -/
theorem failover_chain_order_C3_witness :
    ((handleFailover
        ⟨fun s => if s = "cms-service" then "http://cms"
            else if s = "dashboard-service" then "http://dash" else "",
          fun _ => true, fun _ => false, fun _ => "connection refused"⟩
        3 "cms-service" "boom").1.countP (fun a => a.1) ≤ 1) ∧
    (handleFailover
        ⟨fun s => if s = "cms-service" then "http://cms"
            else if s = "dashboard-service" then "http://dash" else "",
          fun _ => true, fun _ => false, fun _ => "connection refused"⟩
        3 "cms-service" "boom").1.head?
      = some (true, ProxyEnv.resolve
          ⟨fun s => if s = "cms-service" then "http://cms"
              else if s = "dashboard-service" then "http://dash" else "",
            fun _ => true, fun _ => false, fun _ => "connection refused"⟩
          "cms-service") ∧
    handleFailover
        ⟨fun _ => "", fun _ => true, fun _ => false, fun _ => "e"⟩
        1 "" "Service not found"
      = ([], POutcome.redirect
          ("/auth/login?error=" ++ queryEscape "Service not found")) := by
  refine ⟨(failover_chain_order_C3 _ 3 "cms-service" "boom").1, ?_, ?_⟩
  · exact (failover_chain_order_C3 _ 3 "cms-service" "boom").2.2.1
      (by decide) (by decide) (by decide)
  · exact (failover_chain_order_C3
      ⟨fun _ => "", fun _ => true, fun _ => false, fun _ => "e"⟩
      1 "" "Service not found").2.2.2.2 rfl rfl (by decide)

namespace Gateway.RL

/-- Running a bucket over concatenated arrival lists composes. -/
theorem runAllow_append (b : TokenBucket) (xs ys : List ℚ) :
    runAllow b (xs ++ ys)
      = ((runAllow (runAllow b xs).1 ys).1,
         (runAllow b xs).2 ++ (runAllow (runAllow b xs).1 ys).2) := by
  induction xs generalizing b with
  | nil => simp [runAllow]
  | cons t ts ih => simp [runAllow, ih]

/-- While at least as many tokens remain as requests arrive, every request
is admitted, and the final bucket keeps the configuration, stays within
capacity, ends at the last arrival instant, and its token count is bounded
by the initial count plus the refill over the elapsed window minus one
token per admitted request. -/
theorem runAllow_admits (ts : List ℚ) : ∀ b : TokenBucket,
    0 ≤ b.r → b.tokens ≤ (b.burst : ℚ) →
    (∀ t ∈ ts, b.last ≤ t) → ts.Pairwise (· ≤ ·) →
    ((ts.length : ℚ) ≤ b.tokens) →
    (runAllow b ts).2 = List.replicate ts.length true ∧
    (runAllow b ts).1.r = b.r ∧
    (runAllow b ts).1.burst = b.burst ∧
    (runAllow b ts).1.tokens ≤ ((runAllow b ts).1.burst : ℚ) ∧
    b.last ≤ (runAllow b ts).1.last ∧
    (runAllow b ts).1.tokens
      ≤ b.tokens + ((runAllow b ts).1.last - b.last) * b.r - ts.length ∧
    ((runAllow b ts).1.last = b.last ∨ (runAllow b ts).1.last ∈ ts) := by
  induction ts with
  | nil =>
    intro b hr hcap _ _ _
    refine ⟨rfl, rfl, rfl, hcap, le_refl _, ?_, Or.inl rfl⟩
    simp [runAllow]
  | cons t ts ih =>
    intro b hr hcap hlast hsort hlen
    have hbt : b.last ≤ t := hlast t (List.mem_cons_self t ts)
    have hlenq : ((ts.length : ℚ) + 1) ≤ b.tokens := by
      have : (((t :: ts).length : ℕ) : ℚ) = (ts.length : ℚ) + 1 := by
        push_cast [List.length_cons]
        ring
      rw [this] at hlen
      exact hlen
    have hone : (1 : ℚ) ≤ b.tokens := by
      have hnn : (0 : ℚ) ≤ (ts.length : ℚ) := Nat.cast_nonneg _
      linarith
    have hminge : b.tokens ≤ min (b.burst : ℚ) (b.tokens + (t - b.last) * b.r) := by
      refine le_min hcap ?_
      have : 0 ≤ (t - b.last) * b.r := mul_nonneg (sub_nonneg.mpr hbt) hr
      linarith
    have hocc : (1 : ℚ) ≤ min (b.burst : ℚ) (b.tokens + (t - b.last) * b.r) :=
      le_trans hone hminge
    have hallow : b.allow t
        = (⟨b.r, b.burst, min (b.burst : ℚ) (b.tokens + (t - b.last) * b.r) - 1, t⟩,
           true) := by
      simp only [TokenBucket.allow, TokenBucket.advance]
      rw [if_pos hocc]
    obtain ⟨hpc, hps⟩ := List.pairwise_cons.mp hsort
    have ihc := ih ⟨b.r, b.burst, min (b.burst : ℚ) (b.tokens + (t - b.last) * b.r) - 1, t⟩
      hr
      (by
        have h1 : min (b.burst : ℚ) (b.tokens + (t - b.last) * b.r) ≤ (b.burst : ℚ) :=
          min_le_left _ _
        simp only []
        linarith)
      (by
        intro t' ht'
        exact hpc t' ht')
      hps
      (by
        simp only []
        linarith)
    obtain ⟨ires, irr, ibb, icap, ilast, itok, imem⟩ := ihc
    have hrun : runAllow b (t :: ts)
        = ((runAllow ⟨b.r, b.burst,
              min (b.burst : ℚ) (b.tokens + (t - b.last) * b.r) - 1, t⟩ ts).1,
           true :: (runAllow ⟨b.r, b.burst,
              min (b.burst : ℚ) (b.tokens + (t - b.last) * b.r) - 1, t⟩ ts).2) := by
      simp [runAllow, hallow]
    rw [hrun]
    refine ⟨?_, irr, ibb, icap, ?_, ?_, ?_⟩
    · simp [ires, List.length_cons, List.replicate_succ]
    · exact le_trans hbt ilast
    · have hminle : min (b.burst : ℚ) (b.tokens + (t - b.last) * b.r)
          ≤ b.tokens + (t - b.last) * b.r := min_le_right _ _
      set flast := (runAllow ⟨b.r, b.burst,
          min (b.burst : ℚ) (b.tokens + (t - b.last) * b.r) - 1, t⟩ ts).1.last with hfl
      have hring : (t - b.last) * b.r + (flast - t) * b.r
          = (flast - b.last) * b.r := by ring
      have hcast : (((t :: ts).length : ℕ) : ℚ) = (ts.length : ℚ) + 1 := by
        push_cast [List.length_cons]
        ring
      rw [hcast]
      simp only [] at itok
      linarith
    · rcases imem with heq | hm
      · rw [heq]
        exact Or.inr (List.mem_cons_self t ts)
      · exact Or.inr (List.mem_cons_of_mem t hm)

end Gateway.RL

/-- C7 (amended): for a bucket of capacity B and refill rate R freshly
created at t0, any burst of exactly B requests arriving (in order) within a
window over which less than one token refills — every arrival t satisfies
(t - t0) × R < 1, e.g. any sub-second window when R ≤ 1 — is fully
admitted, and a (B+1)-th request inside that window is rejected. -/
theorem token_bucket_burst_C7 (R : ℚ) (B : ℕ) (t0 tl : ℚ) (ts : List ℚ)
    (hR : 0 ≤ R) (hlen : ts.length = B)
    (hsort : (ts ++ [tl]).Pairwise (· ≤ ·))
    (hwin : ∀ t ∈ ts ++ [tl], t0 ≤ t ∧ (t - t0) * R < 1) :
    (runAllow (TokenBucket.new R B t0) (ts ++ [tl])).2
      = List.replicate B true ++ [false] := by
  obtain ⟨hs1, _, _⟩ := List.pairwise_append.mp hsort
  have hadm := runAllow_admits ts (TokenBucket.new R B t0) hR
    (le_refl _)
    (fun t ht => (hwin t (List.mem_append_left _ ht)).1)
    hs1
    (by
      show (ts.length : ℚ) ≤ (B : ℚ)
      rw [hlen])
  obtain ⟨hres, hrr, hbb, hcap2, hlast_ge, htok, hlastmem⟩ := hadm
  rw [runAllow_append, hres, hlen]
  have hfr : (runAllow (TokenBucket.new R B t0) ts).1.r = R := hrr
  have hfb : (runAllow (TokenBucket.new R B t0) ts).1.burst = B := hbb
  have htl := hwin tl (List.mem_append_right _ (List.mem_singleton_self tl))
  have hflast : ((runAllow (TokenBucket.new R B t0) ts).1.last - t0) * R < 1 := by
    rcases hlastmem with heq | hm
    · rw [heq]
      show ((TokenBucket.new R B t0).last - t0) * R < 1
      simp [TokenBucket.new]
    · exact (hwin _ (List.mem_append_left _ hm)).2
  have htok2 : (runAllow (TokenBucket.new R B t0) ts).1.tokens
      ≤ ((runAllow (TokenBucket.new R B t0) ts).1.last - t0) * R := by
    have h0 : (TokenBucket.new R B t0).tokens = (B : ℚ) := rfl
    have h1 : (TokenBucket.new R B t0).last = t0 := rfl
    have h2 : (TokenBucket.new R B t0).r = R := rfl
    rw [h0, h1, h2, hlen] at htok
    linarith
  have hreject : ((runAllow (TokenBucket.new R B t0) ts).1.allow tl).2 = false := by
    simp only [TokenBucket.allow, TokenBucket.advance]
    rw [if_neg]
    intro hcon
    have hmin : min (((runAllow (TokenBucket.new R B t0) ts).1.burst : ℕ) : ℚ)
        ((runAllow (TokenBucket.new R B t0) ts).1.tokens
          + (tl - (runAllow (TokenBucket.new R B t0) ts).1.last)
            * (runAllow (TokenBucket.new R B t0) ts).1.r)
        ≤ (runAllow (TokenBucket.new R B t0) ts).1.tokens
          + (tl - (runAllow (TokenBucket.new R B t0) ts).1.last)
            * (runAllow (TokenBucket.new R B t0) ts).1.r := min_le_right _ _
    have hcon' : (1 : ℚ) ≤ (runAllow (TokenBucket.new R B t0) ts).1.tokens
        + (tl - (runAllow (TokenBucket.new R B t0) ts).1.last)
          * (runAllow (TokenBucket.new R B t0) ts).1.r := le_trans hcon hmin
    rw [hfr] at hcon'
    have hring : ((runAllow (TokenBucket.new R B t0) ts).1.last - t0) * R
          + (tl - (runAllow (TokenBucket.new R B t0) ts).1.last) * R
        = (tl - t0) * R := by ring
    have := htl.2
    linarith
  simp [runAllow, hreject]

/-- C7 counterexample: with R = 2 and B = 1, a fresh bucket admits a first
request at t = 0 and ALSO the second (= B+1-th) request at t = 0.6 s —
both inside the same one-second window — because 1.2 tokens have refilled;
this refutes the claim that the (B+1)-th request within the same second is
rejected. -/
theorem token_bucket_refill_cex_C7 :
    (runAllow (TokenBucket.new 2 1 0) [0, 3/5]).2 = [true, true] ∧
    (0 : ℚ) ≤ 3/5 ∧ ((3 : ℚ)/5 - 0) < 1 := by
  refine ⟨?_, by norm_num, by norm_num⟩
  norm_num [runAllow, TokenBucket.allow, TokenBucket.advance, TokenBucket.new]

/-- Witness for C7 at the concrete instance of the claim: R = 1, B = 1,
two requests in the same millisecond (t = 0 and t = 0.001 s): the first is
admitted, the second rejected. -/
theorem token_bucket_burst_C7_witness :
    (runAllow (TokenBucket.new 1 1 0) ([0] ++ [1/1000])).2
      = List.replicate 1 true ++ [false] := by
  refine token_bucket_burst_C7 1 1 0 (1/1000) [0] (by norm_num) rfl ?_ ?_
  · simp [List.pairwise_append]
  · intro t ht
    simp [List.mem_append] at ht
    rcases ht with rfl | rfl <;> norm_num
